import Mathlib

/-
Verification of the expressBookReviews service (Express.js book catalog and
review API) against its specification.

The embedding translates the JavaScript source into Lean:
  * JavaScript objects used as string-keyed maps (the per-book `reviews`
    object, the `books` catalog object) become association lists
    `List (String × _)` whose keys are pairwise distinct, with
    assignment (`obj[k] = v`), lookup (`obj[k]`) and `delete obj[k]`
    modelled by `objSet`, `List.lookup` and `objDelete`.
  * JavaScript string truthiness (`if (s)`) becomes `truthy`:
    a string is truthy iff it is non-empty.
  * The `users` array of `{username, password}` records becomes
    `List User`; `filter` stays `List.filter`.
  * Route handlers become pure functions from the store state and the
    request data to a response paired with the new store state.
  * The jsonwebtoken library is modelled by `Token`, `jwtSign` and
    `jwtVerify`: a signed token carries its payload, and verification
    succeeds iff the verifying secret equals the signing secret and the
    current time is strictly before the expiry timestamp.
-/

namespace ExpressBookReviews

/-- JavaScript truthiness for strings: a string is truthy iff non-empty. -/
def truthy (s : String) : Bool := !(s == "")

/-- HTTP response: status code and body (for JSON bodies, the message field). -/
structure HttpResponse where
  status : Nat
  body : String
deriving DecidableEq

/-- A registered account, as stored in the `users` array of auth_users.js. -/
structure User where
  username : String
  password : String
deriving DecidableEq

/-- The in-memory user directory (`let users = []` in auth_users.js). -/
abbrev Users := List User

/-- A catalog entry from booksdb.js: author, title and the reviews object,
a JavaScript object keyed by username holding review texts. -/
structure Book where
  author : String
  title : String
  reviews : List (String × String)
deriving DecidableEq

/-- The books catalog object, keyed by ISBN. -/
abbrev Catalog := List (String × Book)

/-- Keys of a JavaScript object modelled as an association list. -/
def objKeys {α : Type} (m : List (String × α)) : List String := m.map Prod.fst

/-- JavaScript object assignment `obj[k] = v`: replace the value at an
existing key in place (keys of an object are unique), else append the new
key at the end, as JavaScript property insertion order does. -/
def objSet {α : Type} : List (String × α) → String → α → List (String × α)
  | [], k, v => [(k, v)]
  | p :: rest, k, v => if p.1 == k then (k, v) :: rest else p :: objSet rest k v

/-- JavaScript `delete obj[k]`: remove the entry at key `k` (an object
holds at most one entry per key). -/
def objDelete {α : Type} : List (String × α) → String → List (String × α)
  | [], _ => []
  | p :: rest, k => if p.1 == k then rest else p :: objDelete rest k

end ExpressBookReviews

namespace ExpressBookReviews

theorem lookup_mem {α : Type} {m : List (String × α)} {k : String} {v : α}
    (h : List.lookup k m = some v) : (k, v) ∈ m := by
  induction m with
  | nil => simp [List.lookup] at h
  | cons p rest ih =>
    obtain ⟨a, b⟩ := p
    by_cases hk : k = a
    · subst hk
      simp [List.lookup] at h
      simp [h]
    · have hk' : (k == a) = false := by simp [hk]
      simp [List.lookup, hk'] at h
      exact List.mem_cons_of_mem _ (ih h)

theorem objKeys_cons {α : Type} (p : String × α) (m : List (String × α)) :
    objKeys (p :: m) = p.1 :: objKeys m := rfl

theorem lookup_eq_none_of_not_mem_keys {α : Type} {m : List (String × α)} {k : String}
    (h : k ∉ objKeys m) : List.lookup k m = none := by
  induction m with
  | nil => simp [List.lookup]
  | cons p rest ih =>
    obtain ⟨a, b⟩ := p
    rw [objKeys_cons, List.mem_cons] at h
    push_neg at h
    have hk : (k == a) = false := by simp [h.1]
    simp [List.lookup, hk]
    intro a' b' hmem hka
    subst hka
    exact h.2 (List.mem_map_of_mem Prod.fst hmem)

theorem lookup_objSet_self {α : Type} (m : List (String × α)) (k : String) (v : α) :
    List.lookup k (objSet m k v) = some v := by
  induction m with
  | nil => simp [objSet, List.lookup]
  | cons p rest ih =>
    obtain ⟨a, b⟩ := p
    by_cases hk : a = k
    · subst hk
      simp [objSet, List.lookup]
    · have hk' : (a == k) = false := by simp [hk]
      have hk'' : (k == a) = false := by simp [Ne.symm hk]
      simp [objSet, hk', List.lookup, hk'', ih]

theorem lookup_objSet_ne {α : Type} (m : List (String × α)) {k k' : String} (v : α)
    (h : k' ≠ k) : List.lookup k' (objSet m k v) = List.lookup k' m := by
  induction m with
  | nil =>
    have h' : (k' == k) = false := by simp [h]
    simp [objSet, List.lookup, h']
  | cons p rest ih =>
    obtain ⟨a, b⟩ := p
    by_cases hk : a = k
    · subst hk
      have h' : (k' == a) = false := by simp [h]
      simp [objSet, List.lookup, h']
    · have hk' : (a == k) = false := by simp [hk]
      by_cases hka : k' = a
      · subst hka
        simp [objSet, hk', List.lookup]
      · have h₂ : (k' == a) = false := by simp [hka]
        simp [objSet, hk', List.lookup, h₂, ih]

theorem mem_objSet {α : Type} {m : List (String × α)} {k : String} {v : α}
    {p : String × α} (h : p ∈ objSet m k v) : p = (k, v) ∨ p ∈ m := by
  induction m with
  | nil => simp [objSet] at h; simp [h]
  | cons q rest ih =>
    by_cases hk : q.1 = k
    · have hk' : (q.1 == k) = true := by simp [hk]
      simp [objSet, hk'] at h
      rcases h with h | h
      · left; simp [h]
      · right; exact List.mem_cons_of_mem _ h
    · have hk' : (q.1 == k) = false := by simp [hk]
      simp [objSet, hk'] at h
      rcases h with h | h
      · right; simp [h]
      · rcases ih h with h' | h'
        · left; exact h'
        · right; exact List.mem_cons_of_mem _ h'

theorem mem_objKeys_objSet {α : Type} (m : List (String × α)) (k a : String) (v : α) :
    a ∈ objKeys (objSet m k v) ↔ a = k ∨ a ∈ objKeys m := by
  induction m with
  | nil => simp [objSet, objKeys]
  | cons p rest ih =>
    by_cases hk : p.1 = k
    · have hk' : (p.1 == k) = true := by simp [hk]
      rw [show objSet (p :: rest) k v = (k, v) :: rest by simp [objSet, hk']]
      rw [objKeys_cons, objKeys_cons, hk]
      simp [List.mem_cons]
    · have hk' : (p.1 == k) = false := by simp [hk]
      rw [show objSet (p :: rest) k v = p :: objSet rest k v by simp [objSet, hk']]
      rw [objKeys_cons, objKeys_cons]
      simp only [List.mem_cons, ih]
      tauto

theorem objSet_keys_nodup {α : Type} {m : List (String × α)} (k : String) (v : α)
    (h : (objKeys m).Nodup) : (objKeys (objSet m k v)).Nodup := by
  induction m with
  | nil => simp [objSet, objKeys]
  | cons p rest ih =>
    rw [objKeys_cons, List.nodup_cons] at h
    by_cases hk : p.1 = k
    · have hk' : (p.1 == k) = true := by simp [hk]
      rw [show objSet (p :: rest) k v = (k, v) :: rest by simp [objSet, hk']]
      rw [objKeys_cons, List.nodup_cons]
      exact ⟨by rw [← hk]; exact h.1, h.2⟩
    · have hk' : (p.1 == k) = false := by simp [hk]
      rw [show objSet (p :: rest) k v = p :: objSet rest k v by simp [objSet, hk']]
      rw [objKeys_cons, List.nodup_cons]
      refine ⟨fun hmem => ?_, ih h.2⟩
      rcases (mem_objKeys_objSet rest k p.1 v).mp hmem with h' | h'
      · exact hk h'
      · exact h.1 h'

theorem objDelete_sublist {α : Type} (m : List (String × α)) (k : String) :
    List.Sublist (objDelete m k) m := by
  induction m with
  | nil => simp [objDelete]
  | cons p rest ih =>
    by_cases hk : p.1 = k
    · have hk' : (p.1 == k) = true := by simp [hk]
      rw [show objDelete (p :: rest) k = rest by simp [objDelete, hk']]
      exact List.sublist_cons_self p rest
    · have hk' : (p.1 == k) = false := by simp [hk]
      rw [show objDelete (p :: rest) k = p :: objDelete rest k by simp [objDelete, hk']]
      exact List.Sublist.cons₂ p ih

theorem objDelete_keys_nodup {α : Type} {m : List (String × α)} (k : String)
    (h : (objKeys m).Nodup) : (objKeys (objDelete m k)).Nodup :=
  List.Nodup.sublist (List.Sublist.map Prod.fst (objDelete_sublist m k)) h

theorem lookup_objDelete_self {α : Type} {m : List (String × α)} (k : String)
    (h : (objKeys m).Nodup) : List.lookup k (objDelete m k) = none := by
  induction m with
  | nil => simp [objDelete, List.lookup]
  | cons p rest ih =>
    rw [objKeys_cons, List.nodup_cons] at h
    by_cases hk : p.1 = k
    · have hk' : (p.1 == k) = true := by simp [hk]
      rw [show objDelete (p :: rest) k = rest by simp [objDelete, hk']]
      rw [← hk]
      exact lookup_eq_none_of_not_mem_keys h.1
    · have hk' : (p.1 == k) = false := by simp [hk]
      have hk'' : (k == p.1) = false := by simp [Ne.symm hk]
      rw [show objDelete (p :: rest) k = p :: objDelete rest k by simp [objDelete, hk']]
      obtain ⟨a, b⟩ := p
      simp only [List.lookup, hk'']
      exact ih h.2

theorem lookup_objDelete_ne {α : Type} (m : List (String × α)) {k k' : String}
    (h : k' ≠ k) : List.lookup k' (objDelete m k) = List.lookup k' m := by
  induction m with
  | nil => simp [objDelete]
  | cons p rest ih =>
    by_cases hk : p.1 = k
    · have hk' : (p.1 == k) = true := by simp [hk]
      have hne : (k' == p.1) = false := by rw [hk]; simp [h]
      rw [show objDelete (p :: rest) k = rest by simp [objDelete, hk']]
      obtain ⟨a, b⟩ := p
      simp only [List.lookup, hne]
    · have hk' : (p.1 == k) = false := by simp [hk]
      rw [show objDelete (p :: rest) k = p :: objDelete rest k by simp [objDelete, hk']]
      obtain ⟨a, b⟩ := p
      by_cases hka : k' = a
      · simp [List.lookup, hka]
      · have hka' : (k' == a) = false := by simp [hka]
        simp only [List.lookup, hka']
        exact ih

theorem countP_key_eq_zero {α : Type} {m : List (String × α)} {k : String}
    (h : k ∉ objKeys m) : m.countP (fun p => p.1 == k) = 0 := by
  rw [List.countP_eq_zero]
  intro p hp hpk
  have hk : k = p.1 := by
    have := of_decide_eq_true (by simpa using hpk)
    exact this.symm
  exact h (hk ▸ List.mem_map_of_mem Prod.fst hp)

theorem countP_objSet_self {α : Type} {m : List (String × α)} (k : String) (v : α)
    (h : (objKeys m).Nodup) : (objSet m k v).countP (fun p => p.1 == k) = 1 := by
  induction m with
  | nil => simp [objSet, List.countP_cons]
  | cons p rest ih =>
    rw [objKeys_cons, List.nodup_cons] at h
    by_cases hk : p.1 = k
    · have hk' : (p.1 == k) = true := by simp [hk]
      rw [show objSet (p :: rest) k v = (k, v) :: rest by simp [objSet, hk']]
      rw [List.countP_cons]
      have hzero : rest.countP (fun q => q.1 == k) = 0 :=
        countP_key_eq_zero (by rw [← hk]; exact h.1)
      simp [hzero]
    · have hk' : (p.1 == k) = false := by simp [hk]
      rw [show objSet (p :: rest) k v = p :: objSet rest k v by simp [objSet, hk']]
      rw [List.countP_cons]
      simp [hk', ih h.2]

/-- Translation of `isValid` in auth_users.js: filter the users array for
entries with the same username and test whether any were found. -/
def isValid (users : Users) (username : String) : Bool :=
  (users.filter (fun user => user.username == username)).length > 0

/-- Translation of `authenticatedUser` in auth_users.js: filter the users
array for entries with the same username and password; true iff any match. -/
def authenticatedUser (users : Users) (username password : String) : Bool :=
  if (users.filter (fun user =>
      user.username == username && user.password == password)).length > 0 then
    true
  else
    false

/-- Translation of the POST /register handler in router/general.js: if both
fields are truthy and `isValid` reports no existing user with that username,
append the account and answer 200; else answer 400. -/
def registerUser (users : Users) (username password : String) :
    HttpResponse × Users :=
  if truthy username && truthy password then
    if !(isValid users username) then
      (⟨200, "User successfully registered user " ++ username ++ ". Now you can login"⟩,
        users ++ [⟨username, password⟩])
    else
      (⟨400, "User already exists!"⟩, users)
  else
    (⟨400, "Unable to register user."⟩, users)

/-- Translation of the POST /register/:username/:password handler in
index.js, with its free identifiers `authenticatedUser` and `users` resolved
to the definitions of auth_users.js (in the source they are not in scope in
index.js, so the handler would throw a ReferenceError at runtime): the
duplicate check there is `authenticatedUser(username, password)`, a
username+password match, not a username-only match. -/
def registerIdx (users : Users) (username password : String) :
    HttpResponse × Users :=
  if truthy username && truthy password then
    if !(authenticatedUser users username password) then
      (⟨200, "User successfully registered. Now you can login"⟩,
        users ++ [⟨username, password⟩])
    else
      (⟨404, "User already exists!"⟩, users)
  else
    (⟨404, "Unable to register user."⟩, users)

/-- Model of a token produced by the jsonwebtoken library: the payload
(`{ username }` plus the issued-at and expiry timestamps derived from
`expiresIn`) together with the key the token was signed with. -/
structure Token where
  username : String
  iat : Nat
  exp : Nat
  signedWith : String
deriving DecidableEq

/-- Model of `jwt.sign({ username }, secret, { expiresIn })` at current
time `now` (seconds): the expiry claim is `now + expiresIn`. -/
def jwtSign (username secret : String) (now expiresIn : Nat) : Token :=
  ⟨username, now, now + expiresIn, secret⟩

/-- Model of `jwt.verify(token, secret)` at current time `now`: succeeds
with the decoded payload iff the verification key equals the signing key
and `now` is strictly before the expiry claim (the library rejects a token
once the current time reaches `exp`). -/
def jwtVerify (t : Token) (secret : String) (now : Nat) : Option String :=
  if t.signedWith == secret && now < t.exp then some t.username else none

/-- The `req.session.authorization` record written by the login handler. -/
structure Authorization where
  accessToken : Token
  username : String
deriving DecidableEq

/-- Server-side session state for one session key: `none` when no
authorization entry exists. -/
abbrev Session := Option Authorization

/-- Result of the POST /login handler in auth_users.js: status, message,
the token returned in the body (if any) and the session state afterwards.
The signing secret is the ACCESS_TOKEN_SECRET environment variable with
default "access",
modelled by the optional `envSecret` argument. -/
structure LoginResult where
  status : Nat
  message : String
  accessToken : Option Token
  session : Session
deriving DecidableEq

/-- Translation of the POST /login handler in auth_users.js. -/
def login (users : Users) (sess : Session) (envSecret : Option String)
    (username password : String) (now : Nat) : LoginResult :=
  if !(truthy username) || !(truthy password) then
    ⟨400, "Username and password are required", none, sess⟩
  else if authenticatedUser users username password then
    let secret := envSecret.getD "access"
    let accessToken := jwtSign username secret now (60 * 60)
    ⟨200, "User successfully logged in", some accessToken,
      some ⟨accessToken, username⟩⟩
  else
    ⟨401, "Invalid Login. Check username and password", none, sess⟩

/-- Outcome of the auth middleware in index.js on /customer/auth/* requests. -/
inductive AuthResult where
  /-- Verification succeeded: the decoded username is attached as req.user
  and the request proceeds to the route handler. -/
  | ok (user : String)
  /-- 403 with message "User not authenticated": the session has an
  authorization entry but `jwt.verify` failed (bad signature or expired). -/
  | notAuthenticated
  /-- 403 with message "User not logged in": no authorization entry. -/
  | notLoggedIn
deriving DecidableEq

/-- Translation of the auth middleware in index.js: requires a session
authorization entry and verifies its access token against the hardcoded
secret "access". -/
def auth (sess : Session) (now : Nat) : AuthResult :=
  match sess with
  | none => AuthResult.notLoggedIn
  | some a =>
    match jwtVerify a.accessToken "access" now with
    | some user => AuthResult.ok user
    | none => AuthResult.notAuthenticated

/-- Request data reaching the PUT /auth/review/:isbn handler: the URL
parameter, the username bound in the session authorization, the review text
from the body, and any username field the client put in the body (which the
handler never reads). -/
structure PutRequest where
  isbn : String
  sessionUsername : String
  review : String
  bodyUsername : String
deriving DecidableEq

/-- Request data reaching the DELETE /auth/review/:isbn handler; the
session username is optional because the handler reads it with
`req.session.authorization?.username`. -/
structure DeleteRequest where
  isbn : String
  sessionUsername : Option String
  bodyUsername : String
deriving DecidableEq

/-- Translation of the PUT /auth/review/:isbn handler in auth_users.js:
look the book up by ISBN; if present, assign
`book.reviews[username] = review` with the session username and respond
with `res.send("Review added")` (no status call, so HTTP 200); if absent,
respond with `res.send("Book not found")` (also HTTP 200). -/
def putReview (books : Catalog) (req : PutRequest) : HttpResponse × Catalog :=
  if !(truthy req.isbn) then
    (⟨400, "ISBN is required"⟩, books)
  else
    match List.lookup req.isbn books with
    | some book =>
        (⟨200, "Review added"⟩,
          objSet books req.isbn
            { book with reviews := objSet book.reviews req.sessionUsername req.review })
    | none => (⟨200, "Book not found"⟩, books)

/-- Translation of the DELETE /auth/review/:isbn handler in auth_users.js:
404 when the book is missing, 401 when the session holds no truthy
username, then `if (book.reviews && book.reviews[username])` — the stored
review must be truthy (present and non-empty) — delete the entry and answer
200, else 404 "Review not found for this user". -/
def deleteReview (books : Catalog) (req : DeleteRequest) :
    HttpResponse × Catalog :=
  if !(truthy req.isbn) then
    (⟨400, "ISBN is required"⟩, books)
  else
    match List.lookup req.isbn books with
    | none => (⟨404, "Book not found"⟩, books)
    | some book =>
      match req.sessionUsername with
      | none => (⟨401, "User not logged in"⟩, books)
      | some username =>
        if !(truthy username) then
          (⟨401, "User not logged in"⟩, books)
        else
          match List.lookup username book.reviews with
          | some text =>
            if truthy text then
              (⟨200, "Review deleted successfully"⟩,
                objSet books req.isbn
                  { book with reviews := objDelete book.reviews username })
            else
              (⟨404, "Review not found for this user"⟩, books)
          | none => (⟨404, "Review not found for this user"⟩, books)

/-- The review text stored for a username on a book, if any (composition of
the two object lookups `books[isbn].reviews[username]`). -/
def getReview (books : Catalog) (isbn username : String) : Option String :=
  (List.lookup isbn books).bind (fun book => List.lookup username book.reviews)

/-- How many entries keyed by `username` the reviews object of the book at
`isbn` holds (0 when the book is missing). -/
def reviewCount (books : Catalog) (isbn username : String) : Nat :=
  match List.lookup isbn books with
  | some book => book.reviews.countP (fun p => p.1 == username)
  | none => 0

/-- Well-formedness of the catalog as a family of JavaScript objects: in
every book, the reviews object holds pairwise distinct usernames. -/
def reviewKeysNodup (books : Catalog) : Prop :=
  ∀ p ∈ books, (objKeys p.2.reviews).Nodup

/-- A review mutation reaching the authenticated review routes. -/
inductive Op where
  /-- PUT /auth/review/:isbn with session username `username` and body
  review `text`. -/
  | upsert (isbn username text : String)
  /-- DELETE /auth/review/:isbn with session username `username`. -/
  | del (isbn username : String)
deriving DecidableEq

/-- State change of the catalog under one review mutation. -/
def applyOp (books : Catalog) : Op → Catalog
  | Op.upsert isbn username text =>
      (putReview books ⟨isbn, username, text, ""⟩).2
  | Op.del isbn username =>
      (deleteReview books ⟨isbn, some username, ""⟩).2

/-- The books whose author field equals the query exactly, in catalog
iteration order: `Object.values(books).filter(book => book.author === author)`
as in the author search route. -/
def findByAuthor (books : Catalog) (author : String) : List Book :=
  (books.map Prod.snd).filter (fun book => book.author == author)

/-- The books whose title field equals the query exactly, in catalog
iteration order: `Object.values(books).filter(book => book.title === title)`
as in the GET /title/:title handler in router/general.js. -/
def findByTitle (books : Catalog) (title : String) : List Book :=
  (books.map Prod.snd).filter (fun book => book.title == title)

/-- Outcome of a search route: the matching books rendered with status 200,
or a 404 with the given message. -/
inductive RouteResult where
  /-- 200 with the JSON-rendered book list. -/
  | ok (bookList : List Book)
  /-- 404 with the given body. -/
  | notFound (msg : String)
deriving DecidableEq

/-- Translation of the GET /title/:title handler in router/general.js:
filter the in-process catalog by title; empty result maps to 404. -/
def titleRoute (books : Catalog) (title : String) : RouteResult :=
  let bookList := findByTitle books title
  if bookList.length > 0 then RouteResult.ok bookList
  else RouteResult.notFound "Book not found"

/-- Translation of the GET /author/:author handler in router/general.js:
the handler ignores the in-process `books` object and filters `booksData`,
the body of an HTTP response it fetches with axios from
localhost:3000/books; empty result maps to 404. -/
def authorRouteGeneral (books fetched : Catalog) (author : String) :
    RouteResult :=
  let booksData := fetched
  let bookList := (booksData.map Prod.snd).filter (fun book => book.author == author)
  if bookList.length > 0 then RouteResult.ok bookList
  else RouteResult.notFound "Book not found"

/-- Translation of the GET /author/:author handler in the part_001 draft of
the general router: filter the in-process catalog by author; empty result
maps to 404. -/
def authorRouteLocal (books : Catalog) (author : String) : RouteResult :=
  let bookList := findByAuthor books author
  if bookList.length > 0 then RouteResult.ok bookList
  else RouteResult.notFound "Book not found"

theorem putReview_found (books : Catalog) (req : PutRequest) (book : Book)
    (htruthy : truthy req.isbn = true)
    (hb : List.lookup req.isbn books = some book) :
    putReview books req = (⟨200, "Review added"⟩,
      objSet books req.isbn
        { book with reviews := objSet book.reviews req.sessionUsername req.review }) := by
  unfold putReview
  simp [htruthy, hb]

theorem putReview_preserves_nodup (books : Catalog) (req : PutRequest)
    (h : reviewKeysNodup books) : reviewKeysNodup (putReview books req).2 := by
  unfold putReview
  cases htruthy : truthy req.isbn with
  | false => simpa [htruthy] using h
  | true =>
    cases hb : List.lookup req.isbn books with
    | none => simpa [htruthy, hb] using h
    | some book =>
      simp only [htruthy, Bool.not_true, Bool.false_eq_true, if_false, hb]
      intro p hp
      rcases mem_objSet hp with h' | h'
      · rw [h']
        exact objSet_keys_nodup _ _ (h _ (lookup_mem hb))
      · exact h p h'

theorem deleteReview_preserves_nodup (books : Catalog) (req : DeleteRequest)
    (h : reviewKeysNodup books) : reviewKeysNodup (deleteReview books req).2 := by
  unfold deleteReview
  cases htruthy : truthy req.isbn with
  | false => simpa [htruthy] using h
  | true =>
    cases hb : List.lookup req.isbn books with
    | none => simpa [htruthy, hb] using h
    | some book =>
      cases hsu : req.sessionUsername with
      | none => simpa [htruthy, hb, hsu] using h
      | some username =>
        cases hut : truthy username with
        | false => simpa [htruthy, hb, hsu, hut] using h
        | true =>
          cases hr : List.lookup username book.reviews with
          | none => simpa [htruthy, hb, hsu, hut, hr] using h
          | some text =>
            cases htt : truthy text with
            | false => simpa [htruthy, hb, hsu, hut, hr, htt] using h
            | true =>
              simp only [htruthy, Bool.not_true, Bool.false_eq_true, if_false,
                hb, hsu, hut, hr, htt, if_true]
              intro p hp
              rcases mem_objSet hp with h' | h'
              · rw [h']
                exact objDelete_keys_nodup _ (h _ (lookup_mem hb))
              · exact h p h'

theorem applyOp_preserves_nodup (books : Catalog) (op : Op)
    (h : reviewKeysNodup books) : reviewKeysNodup (applyOp books op) := by
  cases op with
  | upsert isbn username text => exact putReview_preserves_nodup _ _ h
  | del isbn username => exact deleteReview_preserves_nodup _ _ h

theorem foldl_applyOp_preserves_nodup (ops : List Op) (books : Catalog)
    (h : reviewKeysNodup books) : reviewKeysNodup (ops.foldl applyOp books) := by
  induction ops generalizing books with
  | nil => exact h
  | cons op rest ih => exact ih _ (applyOp_preserves_nodup _ _ h)

/-- Claim C1: for every book in the catalog and every username, the books
reviews object holds at most one entry per username after any sequence of
review operations; in particular upserting review "a" and then review "b"
for the same user on the same book leaves exactly one entry for that user,
with text "b" (the second write overwrites, never appends). -/
theorem review_upsert_overwrite_invariant (books : Catalog) (ops : List Op)
    (isbn u : String) (book : Book)
    (hinv : reviewKeysNodup books) (hisbn : truthy isbn = true)
    (hb : List.lookup isbn books = some book) :
    reviewKeysNodup (ops.foldl applyOp books) ∧
    reviewCount (applyOp (applyOp books (Op.upsert isbn u "a")) (Op.upsert isbn u "b")) isbn u = 1 ∧
    getReview (applyOp (applyOp books (Op.upsert isbn u "a")) (Op.upsert isbn u "b")) isbn u = some "b" := by
  have hbook : (objKeys book.reviews).Nodup := hinv _ (lookup_mem hb)
  have h1 : applyOp books (Op.upsert isbn u "a")
      = objSet books isbn { book with reviews := objSet book.reviews u "a" } := by
    simp [applyOp, putReview_found books ⟨isbn, u, "a", ""⟩ book hisbn hb]
  have hl1 : List.lookup isbn (objSet books isbn { book with reviews := objSet book.reviews u "a" })
      = some { book with reviews := objSet book.reviews u "a" } :=
    lookup_objSet_self books isbn _
  have h2 : applyOp (applyOp books (Op.upsert isbn u "a")) (Op.upsert isbn u "b")
      = objSet (objSet books isbn { book with reviews := objSet book.reviews u "a" }) isbn
          { book with reviews := objSet (objSet book.reviews u "a") u "b" } := by
    rw [h1]
    simp [applyOp, putReview_found _ ⟨isbn, u, "b", ""⟩ _ hisbn hl1]
  refine ⟨foldl_applyOp_preserves_nodup ops books hinv, ?_, ?_⟩
  · rw [h2, reviewCount, lookup_objSet_self]
    exact countP_objSet_self u "b" (objSet_keys_nodup u "a" hbook)
  · rw [h2, getReview, lookup_objSet_self]
    simp [lookup_objSet_self]

/-- Concrete instance of claim C1 with one book and an empty operation
sequence. -/
theorem review_upsert_overwrite_invariant_witness :
    reviewKeysNodup (([] : List Op).foldl applyOp [("1", ⟨"Chinua Achebe", "Things Fall Apart", []⟩)]) ∧
    reviewCount (applyOp (applyOp [("1", ⟨"Chinua Achebe", "Things Fall Apart", []⟩)]
      (Op.upsert "1" "alice" "a")) (Op.upsert "1" "alice" "b")) "1" "alice" = 1 ∧
    getReview (applyOp (applyOp [("1", ⟨"Chinua Achebe", "Things Fall Apart", []⟩)]
      (Op.upsert "1" "alice" "a")) (Op.upsert "1" "alice" "b")) "1" "alice" = some "b" :=
  review_upsert_overwrite_invariant [("1", ⟨"Chinua Achebe", "Things Fall Apart", []⟩)] []
    "1" "alice" ⟨"Chinua Achebe", "Things Fall Apart", []⟩
    (by intro p hp; simp at hp; simp [hp, objKeys]) (by decide) (by decide)

/-- Claim C2 as stated fails on the code: when the environment variable
ACCESS_TOKEN_SECRET is set to a value other than "access", the login
handler signs the token with that value but the middleware verifies against
the hardcoded secret "access", so a freshly minted token is rejected even
strictly before its expiry (here at 3599 s, inside the 3600 s window). -/
theorem token_secret_mismatch_cex :
    (login [⟨"alice", "pw"⟩] none (some "s3cret") "alice" "pw" 0).status = 200 ∧
    3599 < 0 + 60 * 60 ∧
    auth (login [⟨"alice", "pw"⟩] none (some "s3cret") "alice" "pw" 0).session 3599
      = AuthResult.notAuthenticated := by
  refine ⟨rfl, by decide, rfl⟩

/-- Claim C2 amended: provided the signing secret in effect equals the
middleware verification secret "access" (ACCESS_TOKEN_SECRET unset or set
to "access"), a token minted at login with the 1-hour window authorizes at
every time strictly before its expiry timestamp and never at or after it;
the middleware answers notLoggedIn when no session authorization entry
exists and notAuthenticated when the token signature fails or the current
time reaches the expiry. -/
theorem token_expiry_auth (users : Users) (sess : Session) (env : Option String)
    (u p : String) (t : Nat)
    (hsec : env.getD "access" = "access")
    (hu : truthy u = true) (hp : truthy p = true)
    (hauth : authenticatedUser users u p = true) :
    (login users sess env u p t).status = 200 ∧
    (∃ tok, (login users sess env u p t).accessToken = some tok ∧ tok.exp = t + 60 * 60) ∧
    (∀ n, n < t + 60 * 60 → auth (login users sess env u p t).session n = AuthResult.ok u) ∧
    (∀ n, t + 60 * 60 ≤ n → auth (login users sess env u p t).session n = AuthResult.notAuthenticated) ∧
    (∀ n, auth none n = AuthResult.notLoggedIn) ∧
    (∀ n (a : Authorization), a.accessToken.signedWith ≠ "access" →
      auth (some a) n = AuthResult.notAuthenticated) := by
  have hlogin : login users sess env u p t
      = ⟨200, "User successfully logged in",
          some (jwtSign u (env.getD "access") t (60 * 60)),
          some ⟨jwtSign u (env.getD "access") t (60 * 60), u⟩⟩ := by
    unfold login
    simp [hu, hp, hauth]
  rw [hlogin, hsec]
  refine ⟨rfl, ⟨_, rfl, rfl⟩, ?_, ?_, fun n => rfl, ?_⟩
  · intro n hn
    simp [auth, jwtVerify, jwtSign, hn]
  · intro n hn
    simp [auth, jwtVerify, jwtSign, Nat.not_lt.mpr hn]
  · intro n a ha
    simp [auth, jwtVerify, ha]

/-- Concrete instance of the amended claim C2: a token minted at time 0
with the default secret authorizes at 3599 s and is rejected at 3601 s. -/
theorem token_expiry_auth_witness :
    auth (login [⟨"alice", "pw"⟩] none none "alice" "pw" 0).session 3599
      = AuthResult.ok "alice" ∧
    auth (login [⟨"alice", "pw"⟩] none none "alice" "pw" 0).session 3601
      = AuthResult.notAuthenticated := by
  have h := token_expiry_auth [⟨"alice", "pw"⟩] none none "alice" "pw" 0
    rfl (by decide) (by decide) (by decide)
  exact ⟨h.2.2.1 3599 (by decide), h.2.2.2.1 3601 (by decide)⟩

theorem authenticatedUser_iff (users : Users) (u p : String) :
    authenticatedUser users u p = true
      ↔ ∃ acct, acct ∈ users ∧ acct.username = u ∧ acct.password = p := by
  have hiff : (0 < (users.filter fun user =>
      user.username == u && user.password == p).length)
      ↔ ∃ acct, acct ∈ users ∧ acct.username = u ∧ acct.password = p := by
    rw [List.length_pos_iff_exists_mem]
    constructor
    · rintro ⟨acct, hacct⟩
      rw [List.mem_filter] at hacct
      have h2 := hacct.2
      simp only [Bool.and_eq_true, beq_iff_eq] at h2
      exact ⟨acct, hacct.1, h2.1, h2.2⟩
    · rintro ⟨acct, hmem, h1, h2⟩
      exact ⟨acct, List.mem_filter.mpr ⟨hmem, by simp [h1, h2]⟩⟩
  unfold authenticatedUser
  by_cases hc : 0 < (users.filter fun user =>
      user.username == u && user.password == p).length
  · simp only [gt_iff_lt, hc, if_true, true_iff]
    exact hiff.mp hc
  · simp only [gt_iff_lt, hc, if_false, Bool.false_eq_true, false_iff]
    intro hex
    exact hc (hiff.mpr hex)

/-- Claim C3: for non-empty username and password, login succeeds iff an
account with exactly that username and password exists in the user
directory (exact case-sensitive match of both fields), and on success the
returned token decodes to that username. -/
theorem login_succeeds_iff_credentials (users : Users) (sess : Session)
    (env : Option String) (u p : String) (t : Nat)
    (hu : truthy u = true) (hp : truthy p = true) :
    ((login users sess env u p t).status = 200
      ↔ ∃ acct, acct ∈ users ∧ acct.username = u ∧ acct.password = p) ∧
    (∀ tok, (login users sess env u p t).accessToken = some tok →
      tok.username = u) := by
  have hne : (!(truthy u) || !(truthy p)) = false := by rw [hu, hp]; rfl
  cases hauth : authenticatedUser users u p with
  | true =>
    have hl : login users sess env u p t
        = ⟨200, "User successfully logged in",
            some (jwtSign u (env.getD "access") t (60 * 60)),
            some ⟨jwtSign u (env.getD "access") t (60 * 60), u⟩⟩ := by
      unfold login
      rw [hne]
      simp [hauth]
    rw [hl]
    constructor
    · exact iff_of_true rfl ((authenticatedUser_iff users u p).mp hauth)
    · intro tok htok
      have heq : jwtSign u (env.getD "access") t (60 * 60) = tok := by
        simpa using htok
      rw [← heq]
      rfl
  | false =>
    have hl : login users sess env u p t
        = ⟨401, "Invalid Login. Check username and password", none, sess⟩ := by
      unfold login
      rw [hne]
      simp [hauth]
    rw [hl]
    constructor
    · constructor
      · intro h
        simp at h
      · intro hex
        exact absurd ((authenticatedUser_iff users u p).mpr hex) (by simp [hauth])
    · intro tok htok
      cases htok

/-- Concrete instance of claim C3 with a one-account directory. -/
theorem login_succeeds_iff_credentials_witness :
    ((login [⟨"alice", "pw"⟩] none none "alice" "pw" 0).status = 200
      ↔ ∃ acct, acct ∈ [(⟨"alice", "pw"⟩ : User)] ∧
          acct.username = "alice" ∧ acct.password = "pw") ∧
    (∀ tok, (login [⟨"alice", "pw"⟩] none none "alice" "pw" 0).accessToken = some tok →
      tok.username = "alice") :=
  login_succeeds_iff_credentials [⟨"alice", "pw"⟩] none none "alice" "pw" 0
    (by decide) (by decide)

/-- Claim C4 failing input, on the /register/:username/:password endpoint
of index.js: with alice already registered under password pw1, a second
registration of alice under password pw2 is accepted (status 200) and a
second account with the already-taken username alice is appended, because
that endpoints duplicate check is `authenticatedUser(username, password)`,
a username-and-password match, even though `isValid` already reports the
username as taken and the endpoints own comment says it ensures the
username is not already registered. -/
theorem registerIdx_duplicate_username_bug :
    (registerIdx [⟨"alice", "pw1"⟩] "alice" "pw2").1.status = 200 ∧
    (registerIdx [⟨"alice", "pw1"⟩] "alice" "pw2").2
      = [⟨"alice", "pw1"⟩, ⟨"alice", "pw2"⟩] ∧
    isValid [⟨"alice", "pw1"⟩] "alice" = true := by
  refine ⟨rfl, rfl, rfl⟩

/-- Claim C5 failing input: a PUT review for the ISBN "999", which is not
in the catalog, answers with `res.send("Book not found")` and no status
call, an HTTP 200 response rather than the 404 the route itself documents;
the catalog state is unchanged, as the claim says. -/
theorem putReview_book_not_found_status :
    putReview [("1", ⟨"Chinua Achebe", "Things Fall Apart", []⟩)]
        ⟨"999", "alice", "great", ""⟩
      = (⟨200, "Book not found"⟩,
          [("1", ⟨"Chinua Achebe", "Things Fall Apart", []⟩)]) := by
  rfl

theorem deleteReview_found_truthy (books : Catalog) (isbn u : String)
    (book : Book) (text : String) (bu : String)
    (hisbn : truthy isbn = true) (hu : truthy u = true)
    (hb : List.lookup isbn books = some book)
    (hr : List.lookup u book.reviews = some text) (ht : truthy text = true) :
    deleteReview books ⟨isbn, some u, bu⟩
      = (⟨200, "Review deleted successfully"⟩,
          objSet books isbn { book with reviews := objDelete book.reviews u }) := by
  unfold deleteReview
  simp [hisbn, hb, hu, hr, ht]

theorem deleteReview_review_missing (books : Catalog) (isbn u : String)
    (book : Book) (bu : String)
    (hisbn : truthy isbn = true) (hu : truthy u = true)
    (hb : List.lookup isbn books = some book)
    (hr : List.lookup u book.reviews = none) :
    deleteReview books ⟨isbn, some u, bu⟩
      = (⟨404, "Review not found for this user"⟩, books) := by
  unfold deleteReview
  simp [hisbn, hb, hu, hr]

theorem deleteReview_review_falsy (books : Catalog) (isbn u : String)
    (book : Book) (bu : String)
    (hisbn : truthy isbn = true) (hu : truthy u = true)
    (hb : List.lookup isbn books = some book)
    (hr : List.lookup u book.reviews = some "") :
    deleteReview books ⟨isbn, some u, bu⟩
      = (⟨404, "Review not found for this user"⟩, books) := by
  have h1 : isbn ≠ "" := by simpa [truthy] using hisbn
  have h2 : u ≠ "" := by simpa [truthy] using hu
  unfold deleteReview
  simp [hb, hr, truthy, h1, h2]

theorem deleteReview_book_missing (books : Catalog) (isbn : String)
    (su : Option String) (bu : String)
    (hisbn : truthy isbn = true)
    (hb : List.lookup isbn books = none) :
    deleteReview books ⟨isbn, su, bu⟩ = (⟨404, "Book not found"⟩, books) := by
  unfold deleteReview
  simp [hisbn, hb]

/-- Claim C6 as stated fails on the code: an upsert can store the empty
string as a review text, the book then holds a review entry for that user,
yet deleting answers 404 "Review not found for this user" and leaves the
catalog unchanged instead of removing the entry, because the handler tests
`book.reviews[username]` for truthiness. -/
theorem deleteReview_empty_review_cex :
    (putReview [("1", ⟨"A", "T", []⟩)] ⟨"1", "u", "", ""⟩).2
      = [("1", ⟨"A", "T", [("u", "")]⟩)] ∧
    List.lookup "u" (Book.reviews ⟨"A", "T", [("u", "")]⟩) = some "" ∧
    deleteReview [("1", ⟨"A", "T", [("u", "")]⟩)] ⟨"1", some "u", ""⟩
      = (⟨404, "Review not found for this user"⟩,
          [("1", ⟨"A", "T", [("u", "")]⟩)]) := by
  refine ⟨rfl, rfl, rfl⟩

/-- Claim C6 amended: deleteReview fails 404 "Book not found" when the book
does not exist; fails 404 "Review not found for this user" when the book
exists but the stored review for the user is absent or is the empty string
(the handler tests the stored text for truthiness); when the stored text is
non-empty it removes exactly that users entry, leaving every other
username and every other book unchanged; consequently after an upsert with
the non-empty text "x" a first delete succeeds and leaves no entry for the
user, and a second delete fails 404 "Review not found for this user". -/
theorem deleteReview_spec_amended (books : Catalog) (isbn u : String)
    (hinv : reviewKeysNodup books) (hisbn : truthy isbn = true)
    (hu : truthy u = true) :
    (List.lookup isbn books = none →
      deleteReview books ⟨isbn, some u, ""⟩ = (⟨404, "Book not found"⟩, books)) ∧
    (∀ book, List.lookup isbn books = some book →
      (List.lookup u book.reviews = none ∨ List.lookup u book.reviews = some "") →
      deleteReview books ⟨isbn, some u, ""⟩
        = (⟨404, "Review not found for this user"⟩, books)) ∧
    (∀ book text, List.lookup isbn books = some book →
      List.lookup u book.reviews = some text → truthy text = true →
      deleteReview books ⟨isbn, some u, ""⟩
        = (⟨200, "Review deleted successfully"⟩,
            objSet books isbn { book with reviews := objDelete book.reviews u }) ∧
      getReview (deleteReview books ⟨isbn, some u, ""⟩).2 isbn u = none ∧
      (∀ u2, u2 ≠ u → getReview (deleteReview books ⟨isbn, some u, ""⟩).2 isbn u2
        = getReview books isbn u2) ∧
      (∀ isbn2, isbn2 ≠ isbn →
        List.lookup isbn2 (deleteReview books ⟨isbn, some u, ""⟩).2
          = List.lookup isbn2 books)) ∧
    (∀ book, List.lookup isbn books = some book →
      (deleteReview (putReview books ⟨isbn, u, "x", ""⟩).2 ⟨isbn, some u, ""⟩).1
        = ⟨200, "Review deleted successfully"⟩ ∧
      getReview (deleteReview (putReview books ⟨isbn, u, "x", ""⟩).2
        ⟨isbn, some u, ""⟩).2 isbn u = none ∧
      (deleteReview (deleteReview (putReview books ⟨isbn, u, "x", ""⟩).2
        ⟨isbn, some u, ""⟩).2 ⟨isbn, some u, ""⟩).1
        = ⟨404, "Review not found for this user"⟩) := by
  refine ⟨fun hb => deleteReview_book_missing books isbn (some u) "" hisbn hb,
    fun book hb hr => ?_, fun book text hb hr ht => ?_, fun book hb => ?_⟩
  · rcases hr with hr | hr
    · exact deleteReview_review_missing books isbn u book "" hisbn hu hb hr
    · exact deleteReview_review_falsy books isbn u book "" hisbn hu hb hr
  · have hnodup : (objKeys book.reviews).Nodup := hinv _ (lookup_mem hb)
    have heq := deleteReview_found_truthy books isbn u book text "" hisbn hu hb hr ht
    refine ⟨heq, ?_, ?_, ?_⟩
    · rw [heq, getReview]
      simp only [lookup_objSet_self, Option.bind]
      exact lookup_objDelete_self u hnodup
    · intro u2 hu2
      rw [heq, getReview, getReview]
      simp only [lookup_objSet_self, hb, Option.bind]
      exact lookup_objDelete_ne book.reviews hu2
    · intro isbn2 hisbn2
      rw [heq]
      exact lookup_objSet_ne books _ hisbn2
  · have hnodup : (objKeys book.reviews).Nodup := hinv _ (lookup_mem hb)
    have hnodup1 : (objKeys (objSet book.reviews u "x")).Nodup :=
      objSet_keys_nodup u "x" hnodup
    have hput := putReview_found books ⟨isbn, u, "x", ""⟩ book hisbn hb
    have hb1 : List.lookup isbn (putReview books ⟨isbn, u, "x", ""⟩).2
        = some { book with reviews := objSet book.reviews u "x" } := by
      rw [hput]
      exact lookup_objSet_self books isbn _
    have hr1 : List.lookup u (objSet book.reviews u "x") = some "x" :=
      lookup_objSet_self book.reviews u "x"
    have hdel := deleteReview_found_truthy (putReview books ⟨isbn, u, "x", ""⟩).2
      isbn u { book with reviews := objSet book.reviews u "x" } "x" ""
      hisbn hu hb1 hr1 (by decide)
    have hb2 : List.lookup isbn
        (deleteReview (putReview books ⟨isbn, u, "x", ""⟩).2 ⟨isbn, some u, ""⟩).2
        = some { book with reviews := objDelete (objSet book.reviews u "x") u } := by
      rw [hdel]
      exact lookup_objSet_self _ isbn _
    have hr2 : List.lookup u (objDelete (objSet book.reviews u "x") u) = none :=
      lookup_objDelete_self u hnodup1
    refine ⟨by rw [hdel], ?_, ?_⟩
    · rw [getReview, hb2]
      exact hr2
    · rw [deleteReview_review_missing _ isbn u _ ""
        hisbn hu hb2 hr2]

/-- Concrete instance of the amended claim C6: deleting a review that was
never written fails 404, and deleting right after upserting "x" succeeds. -/
theorem deleteReview_spec_amended_witness :
    deleteReview [("1", (⟨"A", "T", [("bob", "hi")]⟩ : Book))] ⟨"1", some "alice", ""⟩
      = (⟨404, "Review not found for this user"⟩,
          [("1", ⟨"A", "T", [("bob", "hi")]⟩)]) ∧
    (deleteReview (putReview [("1", (⟨"A", "T", [("bob", "hi")]⟩ : Book))]
        ⟨"1", "alice", "x", ""⟩).2 ⟨"1", some "alice", ""⟩).1
      = ⟨200, "Review deleted successfully"⟩ := by
  have h := deleteReview_spec_amended [("1", ⟨"A", "T", [("bob", "hi")]⟩)] "1" "alice"
    (by intro p hp; simp at hp; simp [hp, objKeys]) (by decide) (by decide)
  exact ⟨h.2.1 _ rfl (Or.inl rfl), (h.2.2.2 _ rfl).1⟩

/-- Claim C7: for both authenticated review mutations the username under
which the mutation is recorded comes only from the session authorization
bound at login; the handlers never read a client-supplied username, so two
requests that differ only in client-supplied username data yield identical
responses and state changes, and a successful upsert records the review
text under the session username. -/
theorem review_mutation_ignores_body_username (books : Catalog)
    (isbn su rv bu1 bu2 : String) (osu : Option String) :
    putReview books ⟨isbn, su, rv, bu1⟩ = putReview books ⟨isbn, su, rv, bu2⟩ ∧
    deleteReview books ⟨isbn, osu, bu1⟩ = deleteReview books ⟨isbn, osu, bu2⟩ ∧
    (∀ book, truthy isbn = true → List.lookup isbn books = some book →
      getReview (putReview books ⟨isbn, su, rv, bu1⟩).2 isbn su = some rv) := by
  refine ⟨rfl, rfl, fun book hisbn hb => ?_⟩
  rw [putReview_found books ⟨isbn, su, rv, bu1⟩ book hisbn hb, getReview]
  simp only [lookup_objSet_self, Option.bind]

/-- Concrete instance of claim C7: two upserts differing only in a
client-supplied username field coincide, and the review lands under the
session username. -/
theorem review_mutation_ignores_body_username_witness :
    putReview [("1", (⟨"A", "T", []⟩ : Book))] ⟨"1", "alice", "great", "mallory"⟩
      = putReview [("1", (⟨"A", "T", []⟩ : Book))] ⟨"1", "alice", "great", "eve"⟩ ∧
    getReview (putReview [("1", (⟨"A", "T", []⟩ : Book))]
        ⟨"1", "alice", "great", "mallory"⟩).2 "1" "alice" = some "great" := by
  have h := review_mutation_ignores_body_username [("1", ⟨"A", "T", []⟩)]
    "1" "alice" "great" "mallory" "eve" (some "alice")
  exact ⟨h.1, h.2.2 _ (by decide) rfl⟩

/-- Claim C8 as stated fails on the code: the author search handler of
router/general.js filters the body of an HTTP response fetched from
localhost:3000/books, not the in-process catalog, so with a matching book
in the in-process catalog and an empty fetched body the route answers 404
instead of returning the in-process match. -/
theorem author_route_ignores_store_cex :
    findByAuthor [("1", ⟨"Jane Austen", "Pride and Prejudice", []⟩)] "Jane Austen"
      = [⟨"Jane Austen", "Pride and Prejudice", []⟩] ∧
    authorRouteGeneral [("1", ⟨"Jane Austen", "Pride and Prejudice", []⟩)] []
        "Jane Austen"
      = RouteResult.notFound "Book not found" := by
  refine ⟨rfl, rfl⟩

/-- Claim C8 amended: the title search (and the author search of the
part_001 draft) read only the in-process catalog and return exactly the
books whose title (resp. author) equals the query under exact
case-sensitive comparison, in catalog iteration order, with an empty
result mapped to a 404 at the route boundary; the author route of
router/general.js applies the same filter and the same 404 mapping, but to
the catalog data it fetched over HTTP rather than to the in-process store,
so it matches the claim only when the fetched data coincides with the
in-process catalog. -/
theorem find_by_field_amended (books fetched : Catalog) (a t : String) :
    List.Sublist (findByAuthor books a) (books.map Prod.snd) ∧
    (∀ b ∈ findByAuthor books a, b.author = a) ∧
    (∀ b ∈ books.map Prod.snd, b.author = a → b ∈ findByAuthor books a) ∧
    List.Sublist (findByTitle books t) (books.map Prod.snd) ∧
    (∀ b ∈ findByTitle books t, b.title = t) ∧
    (∀ b ∈ books.map Prod.snd, b.title = t → b ∈ findByTitle books t) ∧
    (findByTitle books t = [] →
      titleRoute books t = RouteResult.notFound "Book not found") ∧
    (findByTitle books t ≠ [] →
      titleRoute books t = RouteResult.ok (findByTitle books t)) ∧
    (findByAuthor books a = [] →
      authorRouteLocal books a = RouteResult.notFound "Book not found") ∧
    (findByAuthor books a ≠ [] →
      authorRouteLocal books a = RouteResult.ok (findByAuthor books a)) ∧
    authorRouteGeneral books fetched a = authorRouteLocal fetched a := by
  refine ⟨List.filter_sublist _, ?_, ?_, List.filter_sublist _, ?_, ?_,
    ?_, ?_, ?_, ?_, rfl⟩
  · intro b hb
    have h := (List.mem_filter.mp hb).2
    simpa using h
  · intro b hb hba
    exact List.mem_filter.mpr ⟨hb, by simp [hba]⟩
  · intro b hb
    have h := (List.mem_filter.mp hb).2
    simpa using h
  · intro b hb hbt
    exact List.mem_filter.mpr ⟨hb, by simp [hbt]⟩
  · intro h
    rw [titleRoute]
    simp [h]
  · intro h
    rw [titleRoute]
    simp [List.length_pos.mpr h]
  · intro h
    rw [authorRouteLocal]
    simp [h]
  · intro h
    rw [authorRouteLocal]
    simp [List.length_pos.mpr h]

/-- Concrete instance of the amended claim C8: an exact title match is
served from the in-process catalog and an author with no match yields 404
from the part_001 route. -/
theorem find_by_field_amended_witness :
    titleRoute [("1", (⟨"Jane Austen", "Pride and Prejudice", []⟩ : Book))]
        "Pride and Prejudice"
      = RouteResult.ok [⟨"Jane Austen", "Pride and Prejudice", []⟩] ∧
    authorRouteLocal [("1", (⟨"Jane Austen", "Pride and Prejudice", []⟩ : Book))]
        "Emily Bronte"
      = RouteResult.notFound "Book not found" := by
  obtain ⟨-, -, -, -, -, -, -, hok, hnf, -, -⟩ :=
    find_by_field_amended [("1", ⟨"Jane Austen", "Pride and Prejudice", []⟩)] []
      "Emily Bronte" "Pride and Prejudice"
  exact ⟨hok (by decide), hnf rfl⟩

/-- Claim C9: a register call that fails (missing field or duplicate
username) leaves the user directory unchanged, and a login call that fails
leaves the session unchanged and issues no token. -/
theorem failed_ops_no_side_effects (users : Users) (sess : Session)
    (env : Option String) (u p : String) (t : Nat) :
    ((registerUser users u p).1.status ≠ 200 → (registerUser users u p).2 = users) ∧
    ((login users sess env u p t).status ≠ 200 →
      (login users sess env u p t).session = sess ∧
      (login users sess env u p t).accessToken = none) := by
  constructor
  · intro h
    unfold registerUser at h ⊢
    cases h1 : (truthy u && truthy p) with
    | false => simp [h1]
    | true =>
      cases h2 : isValid users u with
      | false =>
        exfalso
        apply h
        simp [h1, h2]
      | true => simp [h1, h2]
  · intro h
    unfold login at h ⊢
    cases h1 : (!(truthy u) || !(truthy p)) with
    | true => simp [h1]
    | false =>
      cases h2 : authenticatedUser users u p with
      | true =>
        exfalso
        apply h
        simp [h1, h2]
      | false => simp [h1, h2]

/-- Concrete instance of claim C9: a duplicate-username registration and a
login against an empty directory change nothing. -/
theorem failed_ops_no_side_effects_witness :
    (registerUser [⟨"alice", "pw1"⟩] "alice" "pw2").2 = [⟨"alice", "pw1"⟩] ∧
    ((login [] none none "alice" "pw" 0).session = none ∧
      (login [] none none "alice" "pw" 0).accessToken = none) := by
  have h1 := failed_ops_no_side_effects [⟨"alice", "pw1"⟩] none none "alice" "pw2" 0
  have h2 := failed_ops_no_side_effects [] none none "alice" "pw" 0
  exact ⟨h1.1 (by decide), h2.2 (by decide)⟩

/-- Claim C10: for every book in the catalog and every username whose
stored review text on that book is the empty string (the falsy string),
deleteReview answers 404 "Review not found for this user" and leaves the
catalog, and hence the entry, in place, even though an entry keyed by that
username exists in the reviews object. -/
theorem delete_empty_text_review_not_found (books : Catalog) (isbn u : String)
    (book : Book)
    (hisbn : truthy isbn = true) (hu : truthy u = true)
    (hb : List.lookup isbn books = some book)
    (hr : List.lookup u book.reviews = some "") :
    deleteReview books ⟨isbn, some u, ""⟩
      = (⟨404, "Review not found for this user"⟩, books) ∧
    getReview (deleteReview books ⟨isbn, some u, ""⟩).2 isbn u = some "" := by
  have heq := deleteReview_review_falsy books isbn u book "" hisbn hu hb hr
  refine ⟨heq, ?_⟩
  rw [heq, getReview]
  simp only [hb, Option.bind]
  exact hr

/-- Concrete instance of claim C10 with a stored empty-string review. -/
theorem delete_empty_text_review_not_found_witness :
    deleteReview [("1", (⟨"A", "T", [("alice", "")]⟩ : Book))] ⟨"1", some "alice", ""⟩
      = (⟨404, "Review not found for this user"⟩,
          [("1", ⟨"A", "T", [("alice", "")]⟩)]) ∧
    getReview (deleteReview [("1", (⟨"A", "T", [("alice", "")]⟩ : Book))]
        ⟨"1", some "alice", ""⟩).2 "1" "alice" = some "" :=
  delete_empty_text_review_not_found [("1", ⟨"A", "T", [("alice", "")]⟩)]
    "1" "alice" ⟨"A", "T", [("alice", "")]⟩ (by decide) (by decide) rfl rfl

end ExpressBookReviews
